import Mathlib

/-!
# Verification of the rabbithole session/scoring engine

A shallow embedding of the session-lifecycle and rabbithole-scoring core of the
`rabbitholetracker` browser extension, together with proofs about it.

Embedded source files:
* `background/rabbithole-detector.js` — `scoreSession`
* `background/session-manager.js` — `addPageVisitToSession` (session expiry and
  creation, page/domain accumulation, keyword extraction, topic fallback and
  AI synthesis, scoring, persistence)
* `background/blocker-engine.js` (final version, with the 10-minute duplicate
  suppression) — `checkTimeLimits`

Modelling conventions:
* JS numbers are modelled as exact rationals (`ℚ`); epoch-millisecond
  timestamps as `ℤ`.  The arithmetic performed by the source stays far from
  the precision limits of binary doubles for all inputs considered here.
* JS objects used as string-keyed maps (`allTopics`, `timeLimits`, the
  `notified_<domain>` keys of session storage) are modelled as insertion-ordered
  association lists; JS objects enumerate string keys in insertion order.
* `chrome.storage` state is passed and returned explicitly, so the stateful
  `addPageVisitToSession` and `checkTimeLimits` become pure state-transition
  functions.
* The external AI synthesis capability (`self.LanguageModel`) is an oracle
  argument: `some reply` for a run where the model is present, reports itself
  available and answers; `none` for every failing run (absent capability,
  unavailable state, thrown error, timeout).
* The browser's URL parser (`new URL(u).hostname`) is an external collaborator;
  the session theorems quantify over an arbitrary `hostname : String → Option
  String` (`none` models a thrown parse error).  A small concrete parser
  `simpleHostname` is provided only to instantiate witnesses.
-/

set_option maxRecDepth 10000

namespace Rabbithole

/-- A single page visit, as produced by the time tracker / content script
(`{url, title, aiTopics?}`).  A missing `aiTopics` field is modelled by `none`;
a missing `url` by the empty string (both are falsy in the source's
`!pageData.url` check). -/
structure PageVisit where
  url : String
  title : String
  aiTopics : Option (List String)
  deriving Repr, DecidableEq

/-- The `currentSession` record persisted in `chrome.storage.session`
(`background/session-manager.js`).  `none` in `allTopics` models a
missing/null field; the score fields are absent (`none`) until the detector
has run. -/
structure Session where
  id : String
  startTime : ℤ
  pages : List PageVisit
  domains : List String
  allTopics : Option (List (String × Nat))
  primaryTopic : String
  lastActivity : ℤ
  rabbitholeScore : Option ℚ := none
  rabbitholeSeverity : Option String := none
  deriving Repr, DecidableEq

/-! ## Rabbithole scorer (`background/rabbithole-detector.js`) -/

/-- Floor of a rational, computed directly on its normalized numerator and
denominator with flooring integer division (the denominator is positive). -/
def qfloor (x : ℚ) : ℤ := Int.fdiv x.num x.den

/-- `parseFloat(score.toFixed(2))` on the exact-rational model of JS numbers:
round to the nearest multiple of 1/100, halves up (exact decimal halves do not
arise from the binary doubles of the source). -/
def toFixed2 (x : ℚ) : ℚ := (qfloor (x * 100 + 1/2) : ℚ) / 100

/-- The raw (un-rounded) weighted sum accumulated in the local variable `score`
of `scoreSession`: duration factor, domain-hop factor, page-depth factor, and
the conditional topic-diversity factor.
`session.allTopics ? Object.keys(session.allTopics).length : 0` is `0` exactly
when `allTopics` is missing/null (an empty JS object is truthy, with 0 keys),
and the diversity factor is added only when `uniqueTopics > 1`. -/
def rawScore (s : Session) : ℚ :=
  let durationInMinutes : ℚ := ((s.lastActivity : ℚ) - (s.startTime : ℚ)) / 60000
  let base : ℚ := durationInMinutes * 0.5
    + (s.domains.length : ℚ) * 1.5 + (s.pages.length : ℚ) * 0.2
  let uniqueTopics : Nat :=
    match s.allTopics with
    | some t => t.length
    | none => 0
  if uniqueTopics > 1 then base + (uniqueTopics : ℚ) * 2 else base

/-- `scoreSession`: returns `{rabbitholeScore, rabbitholeSeverity}`.  The
severity ladder `'Low'; if (score > 15) 'Medium'; if (score > 30) 'High'` of
the source is applied to the raw score and is equivalent to the nested
conditional below; the returned score is `parseFloat(score.toFixed(2))`. -/
def scoreSession (s : Session) : ℚ × String :=
  let score := rawScore s
  let severity := if score > 30 then "High" else if score > 15 then "Medium" else "Low"
  (toFixed2 score, severity)

/-! ## Keyword extraction (step 5 of `addPageVisitToSession`) -/

/-- The fixed punctuation class of the source regex
`/[.,\/#!$%\^&\*;:{}=\-_`~()]/g` (braces and the backtick written with
hexadecimal character escapes). -/
def punctChars : List Char :=
  ['.', ',', '/', '#', '!', '$', '%', '^', '&', '*', ';', ':',
   '\x7b', '\x7d', '=', '-', '_', '\x60', '~', '(', ')']

/-- `keyword.replace(/[.,\/#!$%\^&\*;:{}=\-_`~()]/g, "").toLowerCase()`:
delete every punctuation character, then lower-case.  Implemented on the
character list underlying the string. -/
def cleanKeyword (k : String) : String :=
  ⟨(k.data.filter (fun c => !(punctChars.contains c))).map Char.toLower⟩

/-- Splitting a sentence at whitespace characters, structurally on the
character list.  Like `topicSentence.split(/\s+/)` it yields every
whitespace-free chunk in order; the empty chunks it additionally produces at
runs of whitespace are dropped by the `length > 3` filter exactly as the empty
string produced by a JS leading separator is. -/
def splitWsAux : List Char → List Char → List (List Char)
  | [], acc => [acc.reverse]
  | c :: rest, acc =>
    if c.isWhitespace then acc.reverse :: splitWsAux rest []
    else splitWsAux rest (c :: acc)

/-- `topicSentence.split(/\s+/)`, see `splitWsAux`. -/
def splitWs (s : String) : List String := (splitWsAux s.data []).map fun cs => ⟨cs⟩

/-- The fixed stop-word set of the source. -/
def stopWords : List String :=
  ["a", "an", "the", "in", "on", "of", "for", "to", "and", "is", "was", "as", "it"]

/-- The filter `cleanKeyword.length > 3 && !stopWords.has(cleanKeyword)`
applied to an already-cleaned keyword. -/
def keepKeyword (ck : String) : Bool :=
  ck.length > 3 && !(stopWords.contains ck)

/-- `keywordCounts[k] = (keywordCounts[k] || 0) + 1` on the association-list
model of the JS object: increment the first (and, by construction, only)
binding of `k`, or append a fresh binding `k ↦ 1` in insertion order. -/
def bump (m : List (String × Nat)) (k : String) : List (String × Nat) :=
  if m.any (fun p => p.1 == k) then
    m.map (fun p => if p.1 == k then (p.1, p.2 + 1) else p)
  else m ++ [(k, 1)]

/-- The full-recompute keyword aggregation of step 5 of
`addPageVisitToSession`: over every page of the session, over every sentence
of its `aiTopics` (skipped when the field is absent), over every
whitespace-separated token, clean the token and count it unless it is too
short or a stop word. -/
def extractKeywords (pages : List PageVisit) : List (String × Nat) :=
  pages.foldl (fun counts page =>
    match page.aiTopics with
    | none => counts
    | some topics =>
      topics.foldl (fun counts sentence =>
        (splitWs sentence).foldl (fun counts keyword =>
          let ck := cleanKeyword keyword
          if keepKeyword ck then bump counts ck else counts) counts) counts) []

/-! ## Keyword ranking (`Object.entries(..).sort(([,a],[,b]) => b - a)`) -/

/-- Insert an entry into a list sorted by descending count: placed after
entries with a strictly larger count and before entries with an equal or
smaller one.  Folding this from the right gives a stable descending sort
(ES2019 `Array.prototype.sort` is stable, hence ties keep first-encountered
order). -/
def insertDesc (p : String × Nat) : List (String × Nat) → List (String × Nat)
  | [] => [p]
  | q :: rest => if q.2 > p.2 then q :: insertDesc p rest else p :: q :: rest

/-- Stable sort by descending count: the comparator `([,a],[,b]) => b - a` of
the source, realised as an insertion sort. -/
def sortDesc (l : List (String × Nat)) : List (String × Nat) := l.foldr insertDesc []

/-! ## Session manager (`background/session-manager.js`) -/

/-- `SESSION_GAP_THRESHOLD = 30 * 60 * 1000` (30 minutes, milliseconds). -/
def SESSION_GAP_THRESHOLD : ℤ := 30 * 60 * 1000

/-- The fresh session object of step 3 of `addPageVisitToSession`. -/
def freshSession (now : ℤ) : Session :=
  { id := "session-" ++ toString now
    startTime := now
    pages := []
    domains := []
    allTopics := some []
    primaryTopic := "Unknown"
    lastActivity := now }

/-- `synthesizedTopic.replace(/[#*_"]/g, '').trim()` applied to the AI reply. -/
def cleanAIResponse (r : String) : String :=
  (String.mk (r.data.filter (fun c => !(['#', '*', '_', '"'].contains c)))).trim

/-- Step 2 of `addPageVisitToSession`: a stored session older than
`SESSION_GAP_THRESHOLD` (strictly) is discarded (set to `null`). -/
def rollSession (stored : Option Session) (now : ℤ) : Option Session :=
  match stored with
  | none => none
  | some s => if now - s.lastActivity > SESSION_GAP_THRESHOLD then none else some s

/-- Step 3: fall back to a brand-new session when none survived. -/
def currentOrFresh (rolled : Option Session) (now : ℤ) : Session :=
  match rolled with
  | none => freshSession now
  | some s => s

/-- Steps 4–6 of `addPageVisitToSession`, for a visit whose hostname `dom` was
already extracted: append the page, refresh `lastActivity`, extend `domains`
if the hostname is new, recompute `allTopics` from scratch, rank the keywords
and set the fallback `primaryTopic` (overwritten by a successful AI synthesis
when more than one top keyword exists), then score the updated session.
The JS mutates one object in place; here each update is written out.  The
`if (session.pages.length > 0)` guard of the source is dropped: it always
holds after the push. -/
def updateSession (session : Session) (ai : Option String) (pd : PageVisit)
    (dom : String) (now : ℤ) : Session :=
  let newPages := session.pages ++ [pd]
  let newDomains :=
    if session.domains.contains dom then session.domains
    else session.domains ++ [dom]
  let keywordCounts := extractKeywords newPages
  let topKeywords := ((sortDesc keywordCounts).take 5).map Prod.fst
  let fallbackTopic :=
    match topKeywords with
    | [] => session.primaryTopic
    | k :: _ => k
  let newPrimaryTopic :=
    if topKeywords.length > 1 then
      match ai with
      | some reply => cleanAIResponse reply
      | none => fallbackTopic
    else fallbackTopic
  let scored := scoreSession
    { session with pages := newPages, domains := newDomains,
                   allTopics := some keywordCounts, primaryTopic := newPrimaryTopic,
                   lastActivity := now }
  { session with pages := newPages, domains := newDomains,
                 allTopics := some keywordCounts, primaryTopic := newPrimaryTopic,
                 lastActivity := now,
                 rabbitholeScore := some scored.1, rabbitholeSeverity := some scored.2 }

/-- `addPageVisitToSession(pageData)` as a state-transition function on the
stored `currentSession` (`none` = nothing stored).  `pageData = none` models a
missing argument; an empty `url` models a missing/empty URL (step 1 rejects
both silently).  A hostname parse failure (`hostname pd.url = none`) models
`new URL(..)` throwing: the outer catch logs and returns, so the stored state
is left untouched (the in-memory mutations of steps 4–5 are never persisted). -/
def addPageVisitToSession (hostname : String → Option String) (ai : Option String)
    (stored : Option Session) (pageData : Option PageVisit) (now : ℤ) : Option Session :=
  match pageData with
  | none => stored
  | some pd =>
    if pd.url = "" then stored
    else
      match hostname pd.url with
      | none => stored
      | some dom =>
        some (updateSession (currentOrFresh (rollSession stored now) now) ai pd dom now)

/-! ## Time-limit monitor (`background/blocker-engine.js`, final version) -/

/-- JS falsiness of an optional number (`undefined` or `0`). -/
def jsFalsyQ (v : Option ℚ) : Bool :=
  match v with
  | none => true
  | some x => x == 0

/-- `a || b` on optional numbers: the left operand unless it is falsy. -/
def jsOr (a b : Option ℚ) : Option ℚ := if jsFalsyQ a then b else a

/-- `domain.replace(/^www\./, '')`: strip one leading `www.`. -/
def stripWww (d : String) : String :=
  match d.data with
  | 'w' :: 'w' :: 'w' :: '.' :: rest => ⟨rest⟩
  | _ => d

/-- `timeLimits[domain] || timeLimits[domain.replace(/^www\./, '')]`. -/
def effectiveLimit (timeLimits : List (String × ℚ)) (domain : String) : Option ℚ :=
  jsOr (timeLimits.lookup domain) (timeLimits.lookup (stripWww domain))

/-- `chrome.storage.session.set({ [key]: v })` on the association-list model:
the new binding shadows any previous one. -/
def setKey (m : List (String × ℤ)) (k : String) (v : ℤ) : List (String × ℤ) :=
  (k, v) :: m

/-- `checkTimeLimits(domain)` of the final `blocker-engine.js`, as a pure
function of its storage reads: `timeLimits` from the settings, `notified` the
`notified_<domain>` timestamps in session storage, `totalTime` the value
`getDomainDataForToday(domain).totalTime || 0` (seconds), `now = Date.now()`.
Returns whether a notification fired together with the updated `notified`
state.  `!limitInMinutes` rejects both a missing and a zero limit; the inner
guard is `!lastNotified[key] || lastNotified[key] < tenMinutesAgo`, where a
stored timestamp `0` is falsy. -/
def checkTimeLimits (timeLimits : List (String × ℚ)) (notified : List (String × ℤ))
    (domain : String) (totalTime : ℚ) (now : ℤ) : Bool × List (String × ℤ) :=
  match effectiveLimit timeLimits domain with
  | none => (false, notified)
  | some limitInMinutes =>
    if limitInMinutes == 0 then (false, notified)
    else
      let limitInSeconds := limitInMinutes * 60
      if totalTime > limitInSeconds then
        let lastNotified := notified.lookup domain
        let tenMinutesAgo := now - 10 * 60 * 1000
        if (match lastNotified with
            | none => true
            | some t => t == 0 || decide (t < tenMinutesAgo)) then
          (true, setKey notified domain now)
        else (false, notified)
      else (false, notified)

/-! ## Concrete stand-in for the browser URL parser (witnesses only) -/

/-- Strip a literal prefix from a character list, or fail. -/
def dropLit : List Char → List Char → Option (List Char)
  | [], cs => some cs
  | _ :: _, [] => none
  | p :: ps, c :: cs => if c == p then dropLit ps cs else none

/-- A minimal model of `new URL(u).hostname` for the http(s) URLs appearing in
concrete examples: strip the scheme, take up to the first `/`, `:`, `?` or
`#`.  Anything without an http(s) scheme fails (models a thrown `TypeError`).
The session theorems do not depend on this definition; they hold for every
hostname function. -/
def simpleHostname (url : String) : Option String :=
  match dropLit "https://".data url.data with
  | some rest =>
    if rest.isEmpty then none
    else some ⟨rest.takeWhile (fun c => !(c == '/' || c == ':' || c == '?' || c == '#'))⟩
  | none =>
    match dropLit "http://".data url.data with
    | some rest =>
      if rest.isEmpty then none
      else some ⟨rest.takeWhile (fun c => !(c == '/' || c == ':' || c == '?' || c == '#'))⟩
    | none => none

/-! ## Scorer theorems (claims C1, C2, C7) -/

/-- **C1.** For every session snapshot with an `allTopics` mapping present,
`scoreSession` returns the duration, domain-hop and page-depth factors plus a
topic-diversity contribution of `count * 2` only when the unique-topic count
exceeds 1 (0 otherwise), the sum rounded to 2 decimal places. -/
theorem scoreSession_formula (s : Session) (t : List (String × Nat))
    (h : s.allTopics = some t) :
    (scoreSession s).1 = toFixed2
      ((((s.lastActivity : ℚ) - (s.startTime : ℚ)) / 60000) * 0.5
        + (s.domains.length : ℚ) * 1.5 + (s.pages.length : ℚ) * 0.2
        + (if 1 < t.length then (t.length : ℚ) * 2 else 0)) := by
  unfold scoreSession rawScore
  rw [h]
  by_cases ht : 1 < t.length
  · simp only [gt_iff_lt, if_pos ht]
  · simp only [gt_iff_lt, if_neg ht, add_zero]

/-- Witness for C1: one minute, one domain, no pages, exactly one unique topic
keyword — which contributes 0, not 2, so the score is 0.5 + 1.5 = 2. -/
def sessionC1 : Session :=
  { id := "w1", startTime := 0, pages := [], domains := ["a.com"],
    allTopics := some [("deep", 2)], primaryTopic := "deep", lastActivity := 60000 }

theorem scoreSession_formula_witness :
    sessionC1.allTopics = some [("deep", 2)] ∧
    (scoreSession sessionC1).1 = toFixed2
      ((((sessionC1.lastActivity : ℚ) - (sessionC1.startTime : ℚ)) / 60000) * 0.5
        + (sessionC1.domains.length : ℚ) * 1.5 + (sessionC1.pages.length : ℚ) * 0.2
        + (if 1 < ([("deep", 2)] : List (String × Nat)).length
           then (([("deep", 2)] : List (String × Nat)).length : ℚ) * 2 else 0)) ∧
    (scoreSession sessionC1).1 = 2 :=
  ⟨rfl, scoreSession_formula sessionC1 [("deep", 2)] rfl,
    of_decide_eq_true (by with_unfolding_all rfl)⟩

/-- A session whose raw score is 15.0025: 30 minutes and 0.3 seconds of
duration and nothing else.  `toFixed(2)` returns exactly 15.00, yet the
severity ladder ran on the raw score 15.0025 > 15 and chose `Medium`. -/
def sessionC2 : Session :=
  { id := "c2", startTime := 0, pages := [], domains := [],
    allTopics := some [], primaryTopic := "Unknown", lastActivity := 1800300 }

/-- **C2, counterexample.** The claim says the severity is determined by the
*returned* `rabbitholeScore`, with a returned score of exactly 15.00 classified
`Low`.  On `sessionC2` the returned score is 15.00 (≤ 15) but the severity is
`Medium`, because the source classifies the un-rounded sum. -/
theorem scoreSession_severity_cex :
    (scoreSession sessionC2).1 = 15 ∧ (scoreSession sessionC2).1 ≤ 15 ∧
    (scoreSession sessionC2).2 = "Medium" ∧ (scoreSession sessionC2).2 ≠ "Low" :=
  of_decide_eq_true (by with_unfolding_all rfl)

/-- **C2, amended.** The severity is determined by the *un-rounded* weighted
sum (`rawScore`): `Low` iff it is ≤ 15, `Medium` iff it is in (15, 30],
`High` iff it is > 30.  (Because the returned score is that sum rounded to two
decimals, the claimed boundary behaviour can fail only within half of 0.01 of
a threshold, as in the counterexample.) -/
theorem scoreSession_severity_thresholds (s : Session) :
    ((scoreSession s).2 = "Low" ↔ rawScore s ≤ 15) ∧
    ((scoreSession s).2 = "Medium" ↔ 15 < rawScore s ∧ rawScore s ≤ 30) ∧
    ((scoreSession s).2 = "High" ↔ 30 < rawScore s) := by
  unfold scoreSession
  by_cases h30 : (30 : ℚ) < rawScore s
  · have h15 : (15 : ℚ) < rawScore s := lt_trans (by norm_num) h30
    simp only [gt_iff_lt, if_pos h30]
    refine ⟨?_, ?_, ?_⟩
    · constructor
      · intro h; exact absurd h (by decide)
      · intro h; exact absurd h30 (not_lt.mpr (le_trans h (by norm_num)))
    · constructor
      · intro h; exact absurd h (by decide)
      · rintro ⟨-, h⟩; exact absurd h30 (not_lt.mpr h)
    · exact ⟨fun _ => h30, fun _ => trivial⟩
  · by_cases h15 : (15 : ℚ) < rawScore s
    · simp only [gt_iff_lt, if_neg h30, if_pos h15]
      refine ⟨?_, ?_, ?_⟩
      · constructor
        · intro h; exact absurd h (by decide)
        · intro h; exact absurd h15 (not_lt.mpr h)
      · exact ⟨fun _ => ⟨h15, not_lt.mp h30⟩, fun _ => trivial⟩
      · constructor
        · intro h; exact absurd h (by decide)
        · intro h; exact absurd h h30
    · simp only [gt_iff_lt, if_neg h30, if_neg h15]
      refine ⟨?_, ?_, ?_⟩
      · exact ⟨fun _ => not_lt.mp h15, fun _ => trivial⟩
      · constructor
        · intro h; exact absurd h (by decide)
        · rintro ⟨h, -⟩; exact absurd h h15
      · constructor
        · intro h; exact absurd h (by decide)
        · intro h; exact absurd h h30

/-- Witness session for C7 with `allTopics` missing entirely. -/
def sessionC7 : Session :=
  { id := "w7", startTime := 0, pages := [], domains := ["a.com"],
    allTopics := none, primaryTopic := "Unknown", lastActivity := 60000 }

/-- **C7.** A session with `allTopics` missing/null or an empty mapping is
scored (totally — the embedding is a total function) with a topic-diversity
contribution of exactly 0. -/
theorem scoreSession_missing_topics (s : Session)
    (h : s.allTopics = none ∨ s.allTopics = some []) :
    (scoreSession s).1 = toFixed2
      ((((s.lastActivity : ℚ) - (s.startTime : ℚ)) / 60000) * 0.5
        + (s.domains.length : ℚ) * 1.5 + (s.pages.length : ℚ) * 0.2) := by
  unfold scoreSession rawScore
  rcases h with h | h <;> rw [h] <;> simp

theorem scoreSession_missing_topics_witness :
    (sessionC7.allTopics = none ∨ sessionC7.allTopics = some []) ∧
    (scoreSession sessionC7).1 = toFixed2
      ((((sessionC7.lastActivity : ℚ) - (sessionC7.startTime : ℚ)) / 60000) * 0.5
        + (sessionC7.domains.length : ℚ) * 1.5 + (sessionC7.pages.length : ℚ) * 0.2) ∧
    (scoreSession sessionC7).1 = 2 :=
  ⟨Or.inl rfl, scoreSession_missing_topics sessionC7 (Or.inl rfl),
    of_decide_eq_true (by with_unfolding_all rfl)⟩

/-! ## Keyword extraction: counting semantics (claim C3) -/

/-- All whitespace-separated tokens of all `aiTopics` sentences of all pages,
in visit/sentence order. -/
def tokensOf (pages : List PageVisit) : List String :=
  pages.flatMap fun p => (p.aiTopics.getD []).flatMap splitWs

/-- The tokens surviving cleaning, the length filter and the stop-word filter
— stated following the spec's words ("every surviving token"). -/
def survivors (pages : List PageVisit) : List String :=
  ((tokensOf pages).map cleanKeyword).filter keepKeyword

/-- Folding over a concatenation of chunks is folding chunk by chunk. -/
theorem foldl_flatMap_eq {α β γ : Type _} (f : β → α → β) (g : γ → List α) :
    ∀ (l : List γ) (init : β),
      (l.flatMap g).foldl f init = l.foldl (fun acc x => (g x).foldl f acc) init
  | [], _ => rfl
  | x :: xs, init => by
    simp only [List.flatMap_cons, List.foldl_append, List.foldl_cons]
    exact foldl_flatMap_eq f g xs _

theorem any_key_eq_lookup_isSome (m : List (String × Nat)) (k : String) :
    m.any (fun p => p.1 == k) = (m.lookup k).isSome := by
  induction m with
  | nil => rfl
  | cons p rest ih =>
    obtain ⟨a, b⟩ := p
    by_cases h : a = k
    · subst h; simp
    · have h1 : (a == k) = false := by simp [h]
      have h2 : (k == a) = false := by simp [Ne.symm h]
      simp [List.any_cons, List.lookup_cons, h1, h2, ih]

theorem lookup_map_bump (k : String) :
    ∀ (m : List (String × Nat)) (c : Nat), m.lookup k = some c →
      (m.map (fun p => if p.1 == k then (p.1, p.2 + 1) else p)).lookup k = some (c + 1) := by
  intro m
  induction m with
  | nil => intro c hm; simp at hm
  | cons p rest ih =>
    obtain ⟨a, b⟩ := p
    intro c hm
    by_cases h : a = k
    · subst h
      simp only [List.lookup_cons_self] at hm
      obtain rfl : b = c := Option.some.inj hm
      simp
    · have h1 : (a == k) = false := by simp [h]
      have h2 : (k == a) = false := by simp [Ne.symm h]
      simp only [List.lookup_cons, h2, cond_false] at hm
      simp only [List.map_cons, h1, Bool.false_eq_true, if_false, List.lookup_cons, h2,
        cond_false]
      exact ih c hm

theorem lookup_map_bump_ne (k k' : String) (h : k' ≠ k) :
    ∀ m : List (String × Nat),
      (m.map (fun p => if p.1 == k then (p.1, p.2 + 1) else p)).lookup k' = m.lookup k' := by
  intro m
  induction m with
  | nil => rfl
  | cons p rest ih =>
    obtain ⟨a, b⟩ := p
    by_cases ha : a = k
    · subst ha
      have h2 : (k' == a) = false := by simp [h]
      rw [List.map_cons, if_pos (beq_self_eq_true a), List.lookup_cons, List.lookup_cons, h2]
      exact ih
    · have h1 : (a == k) = false := by simp [ha]
      rw [List.map_cons, if_neg (by simp [h1]), List.lookup_cons, List.lookup_cons, ih]

theorem bump_lookup_self (m : List (String × Nat)) (k : String) :
    (bump m k).lookup k = some ((m.lookup k).getD 0 + 1) := by
  rw [bump, any_key_eq_lookup_isSome]
  rcases hm : m.lookup k with _ | c
  · simp [hm, List.lookup_append]
  · simp only [hm, Option.isSome_some, if_pos, Option.getD_some]
    exact lookup_map_bump k m c hm

theorem bump_lookup_ne (m : List (String × Nat)) (k k' : String) (h : k' ≠ k) :
    (bump m k).lookup k' = m.lookup k' := by
  rw [bump]
  by_cases hany : (m.any fun p => p.1 == k) = true
  · rw [if_pos hany]
    exact lookup_map_bump_ne k k' h m
  · rw [if_neg hany, List.lookup_append]
    have hkk : (k' == k) = false := by simp [h]
    have h1 : ([(k, 1)] : List (String × Nat)).lookup k' = none := by
      simp [List.lookup_cons, hkk]
    rw [h1, Option.or_none]

theorem foldl_bump_lookup (k : String) :
    ∀ (ks : List String) (acc : List (String × Nat)),
      (ks.foldl bump acc).lookup k =
        match acc.lookup k with
        | some c => some (c + ks.count k)
        | none => if ks.count k = 0 then none else some (ks.count k)
  | [], acc => by rcases h : acc.lookup k <;> simp [h]
  | t :: ks, acc => by
    rw [List.foldl_cons, foldl_bump_lookup k ks (bump acc t)]
    by_cases ht : t = k
    · subst ht
      rw [bump_lookup_self]
      rcases h : acc.lookup t with _ | c <;>
        simp [h, List.count_cons_self, Nat.add_comm, Nat.add_assoc, Nat.add_left_comm]
    · rw [bump_lookup_ne acc t k (Ne.symm ht)]
      rcases h : acc.lookup k with _ | c <;>
        simp [h, List.count_cons_of_ne (Ne.symm ht)]

/-- Per-token counting step of the extraction fold. -/
def bumpTok (counts : List (String × Nat)) (keyword : String) : List (String × Nat) :=
  let ck := cleanKeyword keyword
  if keepKeyword ck then bump counts ck else counts

theorem foldl_bumpTok_eq (ts : List String) :
    ∀ (acc : List (String × Nat)),
      ts.foldl bumpTok acc = ((ts.map cleanKeyword).filter keepKeyword).foldl bump acc := by
  induction ts with
  | nil => intro acc; rfl
  | cons t ts ih =>
    intro acc
    rw [List.foldl_cons, ih, List.map_cons]
    by_cases h : keepKeyword (cleanKeyword t) = true
    · have hb : bumpTok acc t = bump acc (cleanKeyword t) := by
        simp only [bumpTok]; rw [if_pos h]
      rw [List.filter_cons_of_pos h, List.foldl_cons, hb]
    · have hb : bumpTok acc t = acc := by
        simp only [bumpTok]; rw [if_neg h]
      rw [List.filter_cons_of_neg (by simpa using h), hb]

/-- The nested extraction fold of the source is the flat fold over all tokens. -/
theorem extractKeywords_eq_foldl (pages : List PageVisit) :
    extractKeywords pages = (survivors pages).foldl bump [] := by
  rw [survivors, ← foldl_bumpTok_eq, tokensOf, foldl_flatMap_eq]
  rw [extractKeywords]
  congr 1
  funext counts page
  rcases page.aiTopics with _ | topics
  · rfl
  · show _ = ((topics.flatMap splitWs).foldl bumpTok counts)
    rw [foldl_flatMap_eq]
    rfl

/-! ## Basic facts about `addPageVisitToSession` -/

/-- A visit with a nonempty URL whose hostname parses is fully processed:
the result is the updated (possibly rolled-over) session. -/
theorem addPageVisit_processed (hostname : String → Option String) (ai : Option String)
    (stored : Option Session) (pd : PageVisit) (now : ℤ) (dom : String)
    (hurl : pd.url ≠ "") (hdom : hostname pd.url = some dom) :
    addPageVisitToSession hostname ai stored (some pd) now
      = some (updateSession (currentOrFresh (rollSession stored now) now) ai pd dom now) := by
  show (if pd.url = "" then stored
        else match hostname pd.url with
             | none => stored
             | some dom =>
               some (updateSession (currentOrFresh (rollSession stored now) now) ai pd dom now))
      = _
  rw [if_neg hurl, hdom]

theorem updateSession_id (s : Session) (ai : Option String) (pd : PageVisit)
    (dom : String) (now : ℤ) : (updateSession s ai pd dom now).id = s.id := rfl

theorem updateSession_startTime (s : Session) (ai : Option String) (pd : PageVisit)
    (dom : String) (now : ℤ) : (updateSession s ai pd dom now).startTime = s.startTime := rfl

theorem updateSession_lastActivity (s : Session) (ai : Option String) (pd : PageVisit)
    (dom : String) (now : ℤ) : (updateSession s ai pd dom now).lastActivity = now := rfl

theorem updateSession_pages (s : Session) (ai : Option String) (pd : PageVisit)
    (dom : String) (now : ℤ) : (updateSession s ai pd dom now).pages = s.pages ++ [pd] := rfl

theorem updateSession_domains (s : Session) (ai : Option String) (pd : PageVisit)
    (dom : String) (now : ℤ) :
    (updateSession s ai pd dom now).domains
      = (if s.domains.contains dom then s.domains else s.domains ++ [dom]) := rfl

theorem updateSession_allTopics (s : Session) (ai : Option String) (pd : PageVisit)
    (dom : String) (now : ℤ) :
    (updateSession s ai pd dom now).allTopics = some (extractKeywords (s.pages ++ [pd])) := rfl

/-- The counting semantics of the extraction: looking up any keyword in the
result yields exactly the number of its occurrences among the surviving
cleaned tokens (absent iff that number is 0). -/
theorem extractKeywords_lookup (pages : List PageVisit) (k : String) :
    (extractKeywords pages).lookup k =
      (if (survivors pages).count k = 0 then none
       else some ((survivors pages).count k)) := by
  rw [extractKeywords_eq_foldl]
  simpa using foldl_bump_lookup k (survivors pages) []

/-- **C3.** On every processed visit, the session's `allTopics` is recomputed
in full from the entire pages history, and the recomputation maps every
surviving token (whitespace-split, punctuation-stripped, lower-cased, longer
than 3 characters, not a stop word) to the count of its occurrences across all
sentences of all pages.  (Determinism holds trivially: the extraction is a
pure function of the page list.) -/
theorem addPageVisit_allTopics_counts (hostname : String → Option String)
    (ai : Option String) (stored : Option Session) (pd : PageVisit) (now : ℤ)
    (dom : String) (s' : Session) (k : String)
    (hurl : pd.url ≠ "") (hdom : hostname pd.url = some dom)
    (h : addPageVisitToSession hostname ai stored (some pd) now = some s') :
    s'.allTopics = some (extractKeywords s'.pages) ∧
    (extractKeywords s'.pages).lookup k =
      (if (survivors s'.pages).count k = 0 then none
       else some ((survivors s'.pages).count k)) := by
  rw [addPageVisit_processed hostname ai stored pd now dom hurl hdom] at h
  obtain rfl : _ = s' := Option.some.inj h
  exact ⟨by rw [updateSession_allTopics, updateSession_pages],
    extractKeywords_lookup _ k⟩

/-- Concrete example visit: two occurrences each of "renewable" and "energy"
after cleaning; "to", "it", "on" are stop words or too short. -/
def pdEx : PageVisit :=
  { url := "https://a.com/x", title := "A",
    aiTopics := some ["Renewable Energy renewable energy! to it on"] }

/-- The session produced by processing `pdEx` from an empty store at time 0. -/
def sEx : Session :=
  (addPageVisitToSession simpleHostname none none (some pdEx) 0).getD (freshSession 0)

theorem addPageVisit_allTopics_counts_witness :
    (pdEx.url ≠ "" ∧ simpleHostname pdEx.url = some "a.com" ∧
      addPageVisitToSession simpleHostname none none (some pdEx) 0 = some sEx) ∧
    (sEx.allTopics = some (extractKeywords sEx.pages) ∧
      (extractKeywords sEx.pages).lookup "renewable" =
        (if (survivors sEx.pages).count "renewable" = 0 then none
         else some ((survivors sEx.pages).count "renewable"))) ∧
    (extractKeywords sEx.pages).lookup "renewable" = some 2 :=
  ⟨⟨of_decide_eq_true (by with_unfolding_all rfl),
    of_decide_eq_true (by with_unfolding_all rfl),
    of_decide_eq_true (by with_unfolding_all rfl)⟩,
   addPageVisit_allTopics_counts simpleHostname none none pdEx 0 "a.com" sEx "renewable"
     (of_decide_eq_true (by with_unfolding_all rfl))
     (of_decide_eq_true (by with_unfolding_all rfl))
     (of_decide_eq_true (by with_unfolding_all rfl)),
   of_decide_eq_true (by with_unfolding_all rfl)⟩

/-! ## Session lifecycle (claims C4, C6) -/

theorem rollSession_expired (s : Session) (now : ℤ)
    (h : now - s.lastActivity > SESSION_GAP_THRESHOLD) :
    rollSession (some s) now = none := by
  simp only [rollSession, if_pos h]

theorem rollSession_live (s : Session) (now : ℤ)
    (h : ¬ now - s.lastActivity > SESSION_GAP_THRESHOLD) :
    rollSession (some s) now = some s := by
  simp only [rollSession, if_neg h]

/-- `primaryTopic` after an update, with the ranking written out. -/
theorem updateSession_primaryTopic (s : Session) (ai : Option String) (pd : PageVisit)
    (dom : String) (now : ℤ) :
    (updateSession s ai pd dom now).primaryTopic =
      (if (((sortDesc (extractKeywords (s.pages ++ [pd]))).take 5).map Prod.fst).length > 1 then
         (match ai with
          | some reply => cleanAIResponse reply
          | none =>
            match ((sortDesc (extractKeywords (s.pages ++ [pd]))).take 5).map Prod.fst with
            | [] => s.primaryTopic
            | k :: _ => k)
       else
         match ((sortDesc (extractKeywords (s.pages ++ [pd]))).take 5).map Prod.fst with
         | [] => s.primaryTopic
         | k :: _ => k) := rfl

/-- A single page without `aiTopics` contributes no keywords. -/
theorem extractKeywords_single_none (pd : PageVisit) (h : pd.aiTopics = none) :
    extractKeywords [pd] = [] := by
  unfold extractKeywords
  simp [h]

/-- **C4.** Session lifecycle on a processed visit: (a) a stored session idle
for strictly more than 30 minutes is discarded and replaced by a fresh session
`session-<now>` with `startTime = lastActivity = now` containing only the new
visit; (b) a stored session within the gap is reused — same `id` and
`startTime`, one page appended, `domains` extended only by a new hostname;
(c) with nothing stored a fresh session is created likewise, its
`primaryTopic` staying at the default `"Unknown"` when the visit brings no
topics. -/
theorem addPageVisit_lifecycle (hostname : String → Option String) (ai : Option String)
    (pd : PageVisit) (now : ℤ) (dom : String)
    (hurl : pd.url ≠ "") (hdom : hostname pd.url = some dom) :
    (∀ s : Session, now - s.lastActivity > SESSION_GAP_THRESHOLD →
      (addPageVisitToSession hostname ai (some s) (some pd) now).isSome = true ∧
      ∀ s', addPageVisitToSession hostname ai (some s) (some pd) now = some s' →
        s'.id = "session-" ++ toString now ∧ s'.startTime = now ∧
        s'.lastActivity = now ∧ s'.pages = [pd] ∧ s'.domains = [dom]) ∧
    (∀ s : Session, now - s.lastActivity ≤ SESSION_GAP_THRESHOLD →
      (addPageVisitToSession hostname ai (some s) (some pd) now).isSome = true ∧
      ∀ s', addPageVisitToSession hostname ai (some s) (some pd) now = some s' →
        s'.id = s.id ∧ s'.startTime = s.startTime ∧ s'.lastActivity = now ∧
        s'.pages = s.pages ++ [pd] ∧
        s'.domains = (if s.domains.contains dom then s.domains
                      else s.domains ++ [dom])) ∧
    ((addPageVisitToSession hostname ai none (some pd) now).isSome = true ∧
      ∀ s', addPageVisitToSession hostname ai none (some pd) now = some s' →
        s'.id = "session-" ++ toString now ∧ s'.startTime = now ∧
        s'.lastActivity = now ∧ s'.pages = [pd] ∧ s'.domains = [dom] ∧
        (pd.aiTopics = none → s'.primaryTopic = "Unknown")) := by
  have hfresh : ∀ s', updateSession (freshSession now) ai pd dom now = s' →
      s'.id = "session-" ++ toString now ∧ s'.startTime = now ∧
      s'.lastActivity = now ∧ s'.pages = [pd] ∧ s'.domains = [dom] ∧
      (pd.aiTopics = none → s'.primaryTopic = "Unknown") := by
    rintro s' rfl
    refine ⟨rfl, rfl, rfl, by simp [updateSession_pages, freshSession], ?_, ?_⟩
    · rw [updateSession_domains]
      simp [freshSession]
    · intro hai
      rw [updateSession_primaryTopic]
      have hk : extractKeywords ((freshSession now).pages ++ [pd]) = [] := by
        show extractKeywords ([] ++ [pd]) = []
        rw [List.nil_append]
        exact extractKeywords_single_none pd hai
      rw [hk]
      simp [sortDesc, freshSession]
  refine ⟨fun s hgap => ?_, fun s hgap => ?_, ?_⟩
  · have hstep := addPageVisit_processed hostname ai (some s) pd now dom hurl hdom
    rw [rollSession_expired s now hgap] at hstep
    rw [hstep]
    exact ⟨rfl, fun s' h' =>
      ((hfresh s' (Option.some.inj h')).imp id (fun h => h.imp id (fun h => h.imp id
        (fun h => h.imp id And.left))))⟩
  · have hstep := addPageVisit_processed hostname ai (some s) pd now dom hurl hdom
    rw [rollSession_live s now (not_lt.mpr hgap)] at hstep
    rw [hstep]
    refine ⟨rfl, fun s' h' => ?_⟩
    obtain rfl : _ = s' := Option.some.inj h'
    exact ⟨updateSession_id .., updateSession_startTime ..,
      updateSession_lastActivity .., updateSession_pages ..,
      updateSession_domains ..⟩
  · have hstep := addPageVisit_processed hostname ai none pd now dom hurl hdom
    rw [hstep]
    exact ⟨rfl, fun s' h' => hfresh s' (Option.some.inj h')⟩

/-- An already-stored session used in lifecycle witnesses. -/
def sStored : Session :=
  { id := "session-100", startTime := 100, pages := [pdEx], domains := ["a.com"],
    allTopics := some [("renewable", 2), ("energy", 2)], primaryTopic := "renewable",
    lastActivity := 100 }

/-- A second example visit, to a new domain, with no AI topics. -/
def pdEx2 : PageVisit := { url := "https://b.org/y", title := "B", aiTopics := none }

/-- Result of the reuse scenario: `pdEx2` arrives 10 minutes after `sStored`'s
last activity. -/
def sReuse : Session :=
  (addPageVisitToSession simpleHostname none (some sStored) (some pdEx2) 200).getD
    (freshSession 0)

/-- Result of the fresh-creation scenario: `pdEx2` arrives with nothing stored. -/
def sFresh : Session :=
  (addPageVisitToSession simpleHostname none none (some pdEx2) 200).getD
    (freshSession 0)

theorem addPageVisit_lifecycle_witness :
    (pdEx2.url ≠ "" ∧ simpleHostname pdEx2.url = some "b.org" ∧
      (200 : ℤ) - sStored.lastActivity ≤ SESSION_GAP_THRESHOLD ∧
      addPageVisitToSession simpleHostname none (some sStored) (some pdEx2) 200
        = some sReuse ∧
      addPageVisitToSession simpleHostname none none (some pdEx2) 200 = some sFresh ∧
      pdEx2.aiTopics = none) ∧
    (sReuse.id = sStored.id ∧ sReuse.startTime = sStored.startTime ∧
      sReuse.lastActivity = 200 ∧ sReuse.pages = sStored.pages ++ [pdEx2] ∧
      sReuse.domains = (if sStored.domains.contains "b.org" then sStored.domains
                        else sStored.domains ++ ["b.org"])) ∧
    (sFresh.id = "session-" ++ toString (200 : ℤ) ∧ sFresh.startTime = 200 ∧
      sFresh.lastActivity = 200 ∧ sFresh.pages = [pdEx2] ∧ sFresh.domains = ["b.org"] ∧
      (pdEx2.aiTopics = none → sFresh.primaryTopic = "Unknown")) :=
  ⟨⟨of_decide_eq_true (by with_unfolding_all rfl),
    of_decide_eq_true (by with_unfolding_all rfl),
    of_decide_eq_true (by with_unfolding_all rfl),
    of_decide_eq_true (by with_unfolding_all rfl),
    of_decide_eq_true (by with_unfolding_all rfl),
    of_decide_eq_true (by with_unfolding_all rfl)⟩,
   ((addPageVisit_lifecycle simpleHostname none pdEx2 200 "b.org"
      (of_decide_eq_true (by with_unfolding_all rfl))
      (of_decide_eq_true (by with_unfolding_all rfl))).2.1 sStored
      (of_decide_eq_true (by with_unfolding_all rfl))).2 sReuse
      (of_decide_eq_true (by with_unfolding_all rfl)),
   ((addPageVisit_lifecycle simpleHostname none pdEx2 200 "b.org"
      (of_decide_eq_true (by with_unfolding_all rfl))
      (of_decide_eq_true (by with_unfolding_all rfl))).2.2.2 sFresh
      (of_decide_eq_true (by with_unfolding_all rfl)))⟩

/-- **C6.** A missing `pageData` and a missing/empty `url` are rejected
silently: the stored state is returned unchanged (in particular, nothing is
ever thrown — the embedding is a total function returning the old state). -/
theorem addPageVisit_invalid (hostname : String → Option String) (ai : Option String)
    (stored : Option Session) (now : ℤ) :
    addPageVisitToSession hostname ai stored none now = stored ∧
    ∀ pd : PageVisit, pd.url = "" →
      addPageVisitToSession hostname ai stored (some pd) now = stored := by
  refine ⟨rfl, fun pd h => ?_⟩
  show (if pd.url = "" then stored
        else match hostname pd.url with
             | none => stored
             | some dom =>
               some (updateSession (currentOrFresh (rollSession stored now) now) ai pd dom now))
      = stored
  rw [if_pos h]

/-- A visit with a missing URL (modelled as the empty string). -/
def pdEmpty : PageVisit := { url := "", title := "T", aiTopics := none }

theorem addPageVisit_invalid_witness :
    addPageVisitToSession simpleHostname none (some (freshSession 5)) none 7
      = some (freshSession 5) ∧
    (pdEmpty.url = "" ∧
      addPageVisitToSession simpleHostname none (some (freshSession 5)) (some pdEmpty) 7
        = some (freshSession 5)) :=
  ⟨(addPageVisit_invalid simpleHostname none (some (freshSession 5)) 7).1,
   rfl,
   (addPageVisit_invalid simpleHostname none (some (freshSession 5)) 7).2 pdEmpty rfl⟩

/-! ## The domains invariant (claim C5) -/

/-- One step of first-occurrence deduplication — exactly the
`if (!session.domains.includes(domain)) session.domains.push(domain)` update. -/
def dedupStep (acc : List String) (x : String) : List String :=
  if acc.contains x then acc else acc ++ [x]

/-- First-occurrence deduplication of a list (keeps the first occurrence of
every element, in order) — the spec-side description of `domains` as "the set
of distinct hostnames among `pages[*].url`", insertion order preserved. -/
def dedupFirst (l : List String) : List String := l.foldl dedupStep []

/-- The hostnames of all pages, in order (pages whose URL no longer parses are
skipped; the step function only ever appends pages with a parsed hostname). -/
def hostnamesOf (hostname : String → Option String) (pages : List PageVisit) : List String :=
  pages.filterMap fun p => hostname p.url

/-- The C5 invariant: `domains` is exactly the deduplicated hostname list of
`pages`. -/
def domainsInv (hostname : String → Option String) (s : Session) : Prop :=
  s.domains = dedupFirst (hostnamesOf hostname s.pages)

/-- The invariant lifted to the optional stored state. -/
def domainsInvOpt (hostname : String → Option String) : Option Session → Prop
  | none => True
  | some s => domainsInv hostname s

theorem mem_dedupStep (acc : List String) (x d : String) :
    d ∈ dedupStep acc x ↔ d ∈ acc ∨ d = x := by
  unfold dedupStep
  by_cases hc : acc.contains x = true
  · rw [if_pos hc]
    have hx : x ∈ acc := by simpa using hc
    exact ⟨Or.inl, fun h => h.elim id (fun h => h ▸ hx)⟩
  · rw [if_neg hc]
    simp

theorem mem_foldl_dedupStep (l : List String) :
    ∀ (acc : List String) (d : String),
      d ∈ l.foldl dedupStep acc ↔ d ∈ acc ∨ d ∈ l := by
  induction l with
  | nil => intro acc d; simp
  | cons x xs ih =>
    intro acc d
    rw [List.foldl_cons, ih]
    rw [mem_dedupStep]
    simp [or_assoc]

theorem nodup_foldl_dedupStep (l : List String) :
    ∀ acc : List String, acc.Nodup → (l.foldl dedupStep acc).Nodup := by
  induction l with
  | nil => intro acc h; exact h
  | cons x xs ih =>
    intro acc h
    rw [List.foldl_cons]
    refine ih _ ?_
    unfold dedupStep
    by_cases hc : acc.contains x = true
    · rw [if_pos hc]; exact h
    · rw [if_neg hc]
      have hx : x ∉ acc := by simpa using hc
      simp only [List.Nodup, List.pairwise_append, List.pairwise_cons,
        List.Pairwise.nil, List.mem_singleton, and_true, true_and]
      refine ⟨h, by simp, fun a ha b hb => ?_⟩
      subst hb
      exact fun h' => hx (h' ▸ ha)

theorem mem_dedupFirst (l : List String) (d : String) :
    d ∈ dedupFirst l ↔ d ∈ l := by
  rw [dedupFirst, mem_foldl_dedupStep]
  simp

theorem nodup_dedupFirst (l : List String) : (dedupFirst l).Nodup :=
  nodup_foldl_dedupStep l [] List.nodup_nil

theorem dedupFirst_append_singleton (l : List String) (x : String) :
    dedupFirst (l ++ [x]) = dedupStep (dedupFirst l) x := by
  simp [dedupFirst, List.foldl_append]

theorem updateSession_domainsInv (hostname : String → Option String) (s : Session)
    (ai : Option String) (pd : PageVisit) (dom : String) (now : ℤ)
    (hdom : hostname pd.url = some dom) (hinv : domainsInv hostname s) :
    domainsInv hostname (updateSession s ai pd dom now) := by
  unfold domainsInv at hinv ⊢
  rw [updateSession_domains, updateSession_pages, hostnamesOf, List.filterMap_append]
  have h1 : List.filterMap (fun p => hostname p.url) [pd] = [dom] := by simp [hdom]
  rw [h1]
  show dedupStep s.domains dom = _
  rw [hinv, ← dedupFirst_append_singleton]
  rfl

theorem freshSession_domainsInv (hostname : String → Option String) (now : ℤ) :
    domainsInv hostname (freshSession now) := rfl

/-- Helper: a hostname-parse failure leaves the stored state untouched. -/
theorem addPageVisit_badhost (hostname : String → Option String) (ai : Option String)
    (stored : Option Session) (pd : PageVisit) (now : ℤ)
    (hurl : pd.url ≠ "") (hdom : hostname pd.url = none) :
    addPageVisitToSession hostname ai stored (some pd) now = stored := by
  show (if pd.url = "" then stored
        else match hostname pd.url with
             | none => stored
             | some dom =>
               some (updateSession (currentOrFresh (rollSession stored now) now) ai pd dom now))
      = stored
  rw [if_neg hurl, hdom]

/-- Helper: an empty URL leaves the stored state untouched. -/
theorem addPageVisit_emptyUrl (hostname : String → Option String) (ai : Option String)
    (stored : Option Session) (pd : PageVisit) (now : ℤ) (hurl : pd.url = "") :
    addPageVisitToSession hostname ai stored (some pd) now = stored := by
  show (if pd.url = "" then stored
        else match hostname pd.url with
             | none => stored
             | some dom =>
               some (updateSession (currentOrFresh (rollSession stored now) now) ai pd dom now))
      = stored
  rw [if_pos hurl]

theorem addPageVisit_preserves_domainsInv (hostname : String → Option String)
    (ai : Option String) (stored : Option Session) (pdOpt : Option PageVisit) (now : ℤ)
    (hinv : domainsInvOpt hostname stored) :
    domainsInvOpt hostname (addPageVisitToSession hostname ai stored pdOpt now) := by
  cases pdOpt with
  | none => exact hinv
  | some pd =>
    by_cases hurl : pd.url = ""
    · rw [addPageVisit_emptyUrl hostname ai stored pd now hurl]; exact hinv
    · rcases hhost : hostname pd.url with _ | dom
      · rw [addPageVisit_badhost hostname ai stored pd now hurl hhost]; exact hinv
      · rw [addPageVisit_processed hostname ai stored pd now dom hurl hhost]
        show domainsInv hostname (updateSession (currentOrFresh (rollSession stored now) now) ai pd dom now)
        apply updateSession_domainsInv hostname _ ai pd dom now hhost
        cases stored with
        | none => exact freshSession_domainsInv hostname now
        | some s =>
          by_cases hgap : now - s.lastActivity > SESSION_GAP_THRESHOLD
          · rw [rollSession_expired s now hgap]
            exact freshSession_domainsInv hostname now
          · rw [rollSession_live s now hgap]
            exact hinv

/-- **C5.** For every session reachable by `addPageVisitToSession` steps (the
invariant holds for a fresh session and is preserved by every call, on any
input), `domains` contains exactly the distinct hostnames of the pages' URLs,
with no duplicates. -/
theorem addPageVisit_domains_exact (hostname : String → Option String)
    (ai : Option String) (stored : Option Session) (pdOpt : Option PageVisit) (now : ℤ)
    (hinv : domainsInvOpt hostname stored) :
    domainsInvOpt hostname (addPageVisitToSession hostname ai stored pdOpt now) ∧
    ∀ s', addPageVisitToSession hostname ai stored pdOpt now = some s' →
      s'.domains.Nodup ∧
      ∀ d, (d ∈ s'.domains ↔ d ∈ hostnamesOf hostname s'.pages) := by
  have hpres := addPageVisit_preserves_domainsInv hostname ai stored pdOpt now hinv
  refine ⟨hpres, fun s' h' => ?_⟩
  rw [h'] at hpres
  have hinv' : s'.domains = dedupFirst (hostnamesOf hostname s'.pages) := hpres
  rw [hinv']
  exact ⟨nodup_dedupFirst _, fun d => mem_dedupFirst _ d⟩

theorem addPageVisit_domains_exact_witness :
    domainsInvOpt simpleHostname (some sStored) ∧
    domainsInvOpt simpleHostname
      (addPageVisitToSession simpleHostname none (some sStored) (some pdEx2) 200) ∧
    (sReuse.domains.Nodup ∧
      ("b.org" ∈ sReuse.domains ↔ "b.org" ∈ hostnamesOf simpleHostname sReuse.pages)) := by
  have h0 : domainsInvOpt simpleHostname (some sStored) := by
    show sStored.domains = dedupFirst (hostnamesOf simpleHostname sStored.pages)
    exact of_decide_eq_true (by with_unfolding_all rfl)
  have h := addPageVisit_domains_exact simpleHostname none (some sStored) (some pdEx2) 200 h0
  have h2 := h.2 sReuse (of_decide_eq_true (by with_unfolding_all rfl))
  exact ⟨h0, h.1, h2.1, h2.2 "b.org"⟩

/-! ## Highest-ranked keyword (claim C8) -/

/-- The largest frequency occurring in a keyword-count list (0 when empty). -/
def maxCount (kc : List (String × Nat)) : Nat := kc.foldr (fun p m => max p.2 m) 0

/-- The spec-side description of "the single highest-ranked keyword
(descending frequency, ties broken by first-encountered order)": the first
entry attaining the maximal count. -/
def firstMaxKey (kc : List (String × Nat)) : Option String :=
  (kc.find? fun p => p.2 == maxCount kc).map Prod.fst

theorem maxCount_cons (x : String × Nat) (xs : List (String × Nat)) :
    maxCount (x :: xs) = max x.2 (maxCount xs) := rfl

/-- The head of the stable descending sort is the first entry attaining the
maximal count. -/
theorem sortDesc_head (kc : List (String × Nat)) (hne : kc ≠ []) :
    ∃ p t, sortDesc kc = p :: t ∧ p.2 = maxCount kc ∧
      kc.find? (fun q => q.2 == maxCount kc) = some p := by
  induction kc with
  | nil => exact absurd rfl hne
  | cons x xs ih =>
    by_cases hxs : xs = []
    · subst hxs
      refine ⟨x, [], rfl, ?_, ?_⟩
      · rw [maxCount_cons]
        show x.2 = max x.2 0
        rw [Nat.max_zero]
      · rw [List.find?_cons]
        have : (x.2 == maxCount [x]) = true := by
          rw [maxCount_cons]
          show (x.2 == max x.2 0) = true
          rw [Nat.max_zero]
          exact beq_self_eq_true x.2
        rw [this]
    · obtain ⟨p, t, hsort, hmax, hfind⟩ := ih hxs
      have hsx : sortDesc (x :: xs) = insertDesc x (sortDesc xs) := rfl
      by_cases hc : p.2 > x.2
      · have hm : maxCount (x :: xs) = maxCount xs := by
          rw [maxCount_cons, ← hmax, Nat.max_eq_right (le_of_lt hc), hmax]
        refine ⟨p, insertDesc x t, ?_, ?_, ?_⟩
        · rw [hsx, hsort]
          show insertDesc x (p :: t) = p :: insertDesc x t
          rw [insertDesc, if_pos hc]
        · rw [hm, hmax]
        · rw [List.find?_cons]
          have hxf : (x.2 == maxCount (x :: xs)) = false := by
            rw [hm, ← hmax]
            exact beq_eq_false_iff_ne.mpr (Nat.ne_of_lt hc)
          rw [hxf, hm]
          exact hfind
      · have hle : maxCount xs ≤ x.2 := by rw [← hmax]; exact Nat.le_of_not_lt hc
        have hm : maxCount (x :: xs) = x.2 := by
          rw [maxCount_cons, Nat.max_eq_left hle]
        refine ⟨x, p :: t, ?_, hm.symm, ?_⟩
        · rw [hsx, hsort]
          show insertDesc x (p :: t) = x :: p :: t
          rw [insertDesc, if_neg hc]
        · rw [List.find?_cons]
          have : (x.2 == maxCount (x :: xs)) = true := by
            rw [hm]; exact beq_self_eq_true x.2
          rw [this]

/-- **C8.** On every processed visit with the AI synthesis path failing
(unavailable capability, unavailable/error/timeout — the oracle is `none`, and
the call still returns a session rather than raising), if at least one keyword
was extracted then `primaryTopic` is the single highest-ranked keyword:
descending frequency, ties broken by first-encountered order. -/
theorem addPageVisit_primaryTopic_fallback (hostname : String → Option String)
    (stored : Option Session) (pd : PageVisit) (now : ℤ) (dom : String) (s' : Session)
    (hurl : pd.url ≠ "") (hdom : hostname pd.url = some dom)
    (h : addPageVisitToSession hostname none stored (some pd) now = some s')
    (hk : extractKeywords s'.pages ≠ []) :
    firstMaxKey (extractKeywords s'.pages) = some s'.primaryTopic := by
  rw [addPageVisit_processed hostname none stored pd now dom hurl hdom] at h
  obtain rfl : _ = s' := Option.some.inj h
  rw [updateSession_pages] at hk ⊢
  obtain ⟨p, t, hsort, hmax, hfind⟩ := sortDesc_head _ hk
  have hpt : (updateSession (currentOrFresh (rollSession stored now) now) none pd dom now).primaryTopic
      = p.1 := by
    rw [updateSession_primaryTopic, hsort]
    rw [List.take_succ_cons, List.map_cons]
    by_cases hlen : (p.1 :: (t.take 4).map Prod.fst).length > 1
    · rw [if_pos hlen]
    · rw [if_neg hlen]
  rw [hpt, firstMaxKey, hfind]
  rfl

theorem addPageVisit_primaryTopic_fallback_witness :
    (pdEx.url ≠ "" ∧ simpleHostname pdEx.url = some "a.com" ∧
      addPageVisitToSession simpleHostname none none (some pdEx) 0 = some sEx ∧
      extractKeywords sEx.pages ≠ []) ∧
    firstMaxKey (extractKeywords sEx.pages) = some sEx.primaryTopic ∧
    sEx.primaryTopic = "renewable" :=
  ⟨⟨of_decide_eq_true (by with_unfolding_all rfl),
    of_decide_eq_true (by with_unfolding_all rfl),
    of_decide_eq_true (by with_unfolding_all rfl),
    of_decide_eq_true (by with_unfolding_all rfl)⟩,
   addPageVisit_primaryTopic_fallback simpleHostname none pdEx 0 "a.com" sEx
     (of_decide_eq_true (by with_unfolding_all rfl))
     (of_decide_eq_true (by with_unfolding_all rfl))
     (of_decide_eq_true (by with_unfolding_all rfl))
     (of_decide_eq_true (by with_unfolding_all rfl)),
   of_decide_eq_true (by with_unfolding_all rfl)⟩

/-! ## Time-limit monitor theorems (claims C9, C10) -/

theorem checkTimeLimits_noLimit (tl : List (String × ℚ)) (n : List (String × ℤ))
    (d : String) (tt : ℚ) (now : ℤ) (hL : effectiveLimit tl d = none) :
    checkTimeLimits tl n d tt now = (false, n) := by
  unfold checkTimeLimits
  rw [hL]

theorem checkTimeLimits_someLimit (tl : List (String × ℚ)) (n : List (String × ℤ))
    (d : String) (tt : ℚ) (now : ℤ) (l : ℚ) (hL : effectiveLimit tl d = some l) :
    checkTimeLimits tl n d tt now =
      (if l == 0 then (false, n)
       else if tt > l * 60 then
         (if (match n.lookup d with
              | none => true
              | some t => t == 0 || decide (t < now - 10 * 60 * 1000)) then
            (true, setKey n d now)
          else (false, n))
       else (false, n)) := by
  unfold checkTimeLimits
  rw [hL]

/-- After an alert was recorded at time `now > 0`, no alert fires for the same
domain within the next 10 minutes, whatever the cumulative time. -/
theorem checkTimeLimits_after_alert (tl : List (String × ℚ)) (n : List (String × ℤ))
    (d : String) (now : ℤ) (l : ℚ) (hL : effectiveLimit tl d = some l) (hnow : 0 < now) :
    ∀ (tt2 : ℚ) (now2 : ℤ), now2 - now ≤ 10 * 60 * 1000 →
      (checkTimeLimits tl (setKey n d now) d tt2 now2).1 = false := by
  intro tt2 now2 hle
  rw [checkTimeLimits_someLimit tl (setKey n d now) d tt2 now2 l hL]
  by_cases hl0 : (l == 0) = true
  · rw [if_pos hl0]
  · rw [if_neg hl0]
    by_cases htt : tt2 > l * 60
    · rw [if_pos htt]
      have hlook : (setKey n d now).lookup d = some now := List.lookup_cons_self
      rw [hlook]
      have h1 : (now == 0) = false := beq_eq_false_iff_ne.mpr (ne_of_gt hnow)
      have h2 : decide (now < now2 - 10 * 60 * 1000) = false := by
        simp only [decide_eq_false_iff_not, not_lt]
        omega
      show (if ((now == 0 || decide (now < now2 - 10 * 60 * 1000)) = true) then
              (true, setKey (setKey n d now) d now2)
            else (false, setKey n d now)).1 = false
      rw [h1, h2]
      rfl
    · rw [if_neg htt]

/-- `checkTimeLimits`, resolved: limit present and zero. -/
theorem checkTimeLimits_zeroEff (tl : List (String × ℚ)) (n : List (String × ℤ))
    (d : String) (tt : ℚ) (now : ℤ) (hL : effectiveLimit tl d = some 0) :
    checkTimeLimits tl n d tt now = (false, n) := by
  rw [checkTimeLimits_someLimit tl n d tt now 0 hL, if_pos (beq_self_eq_true (0 : ℚ))]

/-- `checkTimeLimits`, resolved: nonzero limit, time not over it. -/
theorem checkTimeLimits_under (tl : List (String × ℚ)) (n : List (String × ℤ))
    (d : String) (tt : ℚ) (now : ℤ) (l : ℚ) (hL : effectiveLimit tl d = some l)
    (hl0 : ¬ l = 0) (htt : ¬ tt > l * 60) :
    checkTimeLimits tl n d tt now = (false, n) := by
  rw [checkTimeLimits_someLimit tl n d tt now l hL, if_neg (by simpa using hl0),
    if_neg htt]

/-- `checkTimeLimits`, resolved: nonzero limit, time over it, inner guard true. -/
theorem checkTimeLimits_fire (tl : List (String × ℚ)) (n : List (String × ℤ))
    (d : String) (tt : ℚ) (now : ℤ) (l : ℚ) (hL : effectiveLimit tl d = some l)
    (hl0 : ¬ l = 0) (htt : tt > l * 60)
    (hg : (match n.lookup d with
           | none => true
           | some t => t == 0 || decide (t < now - 10 * 60 * 1000)) = true) :
    checkTimeLimits tl n d tt now = (true, setKey n d now) := by
  rw [checkTimeLimits_someLimit tl n d tt now l hL, if_neg (by simpa using hl0),
    if_pos htt, if_pos hg]

/-- `checkTimeLimits`, resolved: nonzero limit, time over it, inner guard false. -/
theorem checkTimeLimits_nofire (tl : List (String × ℚ)) (n : List (String × ℤ))
    (d : String) (tt : ℚ) (now : ℤ) (l : ℚ) (hL : effectiveLimit tl d = some l)
    (hl0 : ¬ l = 0) (htt : tt > l * 60)
    (hg : (match n.lookup d with
           | none => true
           | some t => t == 0 || decide (t < now - 10 * 60 * 1000)) = false) :
    checkTimeLimits tl n d tt now = (false, n) := by
  rw [checkTimeLimits_someLimit tl n d tt now l hL, if_neg (by simpa using hl0),
    if_pos htt, if_neg (by simp only [hg]; simp)]

/-- **C9.** An alert is emitted iff a limit is configured for the domain
(exact hostname first, `www.`-stripped second, zero limits skipped), the
cumulative daily time strictly exceeds `limit * 60` seconds, and no alert for
the domain fired within the last 10 minutes; an emitted alert records its
timestamp, which suppresses any further alert for that domain for the next 10
minutes; without an alert (in particular with no limit configured) the state
is unchanged.  Timestamps are positive (`Date.now()`), both for the call and
for anything recorded in the notified state. -/
theorem checkTimeLimits_alert_spec (timeLimits : List (String × ℚ))
    (notified : List (String × ℤ)) (domain : String) (totalTime : ℚ) (now : ℤ)
    (hnow : 0 < now)
    (hpos : match notified.lookup domain with
            | none => True
            | some t => 0 < t) :
    ((checkTimeLimits timeLimits notified domain totalTime now).1 = true ↔
      (match effectiveLimit timeLimits domain with
       | none => False
       | some l => ¬ l = 0 ∧ totalTime > l * 60 ∧
           (match notified.lookup domain with
            | none => True
            | some t => t < now - 10 * 60 * 1000))) ∧
    ((checkTimeLimits timeLimits notified domain totalTime now).1 = true →
      ((checkTimeLimits timeLimits notified domain totalTime now).2.lookup domain
          = some now ∧
        ∀ (totalTime2 : ℚ) (now2 : ℤ), now2 - now ≤ 10 * 60 * 1000 →
          (checkTimeLimits timeLimits
            (checkTimeLimits timeLimits notified domain totalTime now).2
            domain totalTime2 now2).1 = false)) ∧
    ((checkTimeLimits timeLimits notified domain totalTime now).1 = false →
      (checkTimeLimits timeLimits notified domain totalTime now).2 = notified) ∧
    (effectiveLimit timeLimits domain = none →
      checkTimeLimits timeLimits notified domain totalTime now = (false, notified)) := by
  rcases hL : effectiveLimit timeLimits domain with _ | l
  · rw [checkTimeLimits_noLimit timeLimits notified domain totalTime now hL]
    simp
  · by_cases hl0 : l = 0
    · subst hl0
      rw [checkTimeLimits_zeroEff timeLimits notified domain totalTime now hL]
      simp
    · by_cases htt : totalTime > l * 60
      · by_cases hguard : (match notified.lookup domain with
            | none => true
            | some t => t == 0 || decide (t < now - 10 * 60 * 1000)) = true
        · rw [checkTimeLimits_fire timeLimits notified domain totalTime now l hL hl0 htt
            hguard]
          refine ⟨?_,
            fun _ => ⟨List.lookup_cons_self,
              checkTimeLimits_after_alert timeLimits notified domain now l hL hnow⟩,
            by simp, by simp⟩
          refine ⟨fun _ => ?_, fun _ => rfl⟩
          show ¬ l = 0 ∧ totalTime > l * 60 ∧ _
          refine ⟨hl0, htt, ?_⟩
          rcases hlk : notified.lookup domain with _ | t
          · trivial
          · have hpt : 0 < t := by rw [hlk] at hpos; exact hpos
            have hguard' : (t == 0 || decide (t < now - 10 * 60 * 1000)) = true := by
              rw [hlk] at hguard; exact hguard
            show t < now - 10 * 60 * 1000
            rcases Bool.or_eq_true_iff.mp hguard' with h0 | hd
            · exact absurd (beq_iff_eq.mp h0) (ne_of_gt hpt)
            · exact of_decide_eq_true hd
        · have hgf : (match notified.lookup domain with
              | none => true
              | some t => t == 0 || decide (t < now - 10 * 60 * 1000)) = false :=
            Bool.eq_false_iff.mpr hguard
          rw [checkTimeLimits_nofire timeLimits notified domain totalTime now l hL hl0 htt
            hgf]
          refine ⟨?_, by simp, fun _ => rfl, by simp⟩
          refine ⟨fun h => absurd h (by simp), fun hP => ?_⟩
          obtain ⟨-, -, hm⟩ := hP
          rcases hlk : notified.lookup domain with _ | t
          · rw [hlk] at hgf
            exact absurd hgf (by simp)
          · have hm' : t < now - 10 * 60 * 1000 := by rw [hlk] at hm; exact hm
            have hgf' : (t == 0 || decide (t < now - 10 * 60 * 1000)) = false := by
              rw [hlk] at hgf; exact hgf
            rw [decide_eq_true hm'] at hgf'
            exact absurd hgf' (by simp)
      · rw [checkTimeLimits_under timeLimits notified domain totalTime now l hL hl0 htt]
        refine ⟨?_, by simp, fun _ => rfl, by simp⟩
        refine ⟨fun h => absurd h (by simp), fun hP => ?_⟩
        obtain ⟨-, htt', -⟩ := hP
        exact absurd htt' htt

/-- Time limits used by the C9 witness: one minute short of nothing — a plain
60-minute limit on `x.com`. -/
def timeLimits9 : List (String × ℚ) := [("x.com", 60)]

theorem checkTimeLimits_alert_spec_witness :
    ((0 : ℤ) < 1 ∧
      (match ([] : List (String × ℤ)).lookup "x.com" with
       | none => True
       | some t => 0 < t)) ∧
    ((checkTimeLimits timeLimits9 [] "x.com" 3601 1).1 = true ↔
      (match effectiveLimit timeLimits9 "x.com" with
       | none => False
       | some l => ¬ l = 0 ∧ (3601 : ℚ) > l * 60 ∧
           (match ([] : List (String × ℤ)).lookup "x.com" with
            | none => True
            | some t => t < 1 - 10 * 60 * 1000))) ∧
    (checkTimeLimits timeLimits9 [] "x.com" 3601 1).1 = true ∧
    (checkTimeLimits timeLimits9 [] "x.com" 3601 1).2.lookup "x.com" = some 1 ∧
    (checkTimeLimits timeLimits9
      (checkTimeLimits timeLimits9 [] "x.com" 3601 1).2 "x.com" 7200 600000).1 = false := by
  have h := checkTimeLimits_alert_spec timeLimits9 [] "x.com" 3601 1
    (of_decide_eq_true (by with_unfolding_all rfl)) trivial
  have htrue : (checkTimeLimits timeLimits9 [] "x.com" 3601 1).1 = true :=
    of_decide_eq_true (by with_unfolding_all rfl)
  refine ⟨⟨of_decide_eq_true (by with_unfolding_all rfl), trivial⟩, h.1, htrue,
    (h.2.1 htrue).1, (h.2.1 htrue).2 7200 600000 ?_⟩
  exact of_decide_eq_true (by with_unfolding_all rfl)

/-- Time limits falsifying C10 as stated: the exact entry for `www.x.com` is
0 minutes, but the `www.`-stripped entry carries a 60-minute limit. -/
def timeLimitsCex : List (String × ℚ) := [("www.x.com", 0), ("x.com", 60)]

/-- **C10, counterexample.**  With a configured limit of exactly 0 for
`www.x.com`, an hour and one second of cumulative time does fire an alert:
the falsy 0 makes the lookup fall through to the nonzero `x.com` entry. -/
theorem checkTimeLimits_zeroLimit_cex :
    timeLimitsCex.lookup "www.x.com" = some 0 ∧
    (checkTimeLimits timeLimitsCex [] "www.x.com" 3601 5).1 = true :=
  of_decide_eq_true (by with_unfolding_all rfl)

/-- **C10, amended.** A per-domain limit of exactly 0 is skipped by the falsy
check exactly as if no limit were configured for that domain: the lookup falls
through to the `www.`-stripped entry.  When that fallback is also missing or
zero, `checkTimeLimits` never alerts and changes nothing, regardless of the
cumulative time. -/
theorem checkTimeLimits_zeroLimit_noop (tl : List (String × ℚ)) (n : List (String × ℤ))
    (d : String) (tt : ℚ) (now : ℤ)
    (hz : tl.lookup d = some 0)
    (hz2 : tl.lookup (stripWww d) = some 0 ∨ tl.lookup (stripWww d) = none) :
    checkTimeLimits tl n d tt now = (false, n) := by
  have hfalsy : jsFalsyQ (tl.lookup d) = true := by rw [hz]; rfl
  have hL : effectiveLimit tl d = tl.lookup (stripWww d) := by
    unfold effectiveLimit jsOr
    rw [if_pos hfalsy]
  rcases hz2 with h2 | h2
  · rw [checkTimeLimits_someLimit tl n d tt now 0 (hL.trans h2)]
    rw [if_pos (beq_self_eq_true (0 : ℚ))]
  · exact checkTimeLimits_noLimit tl n d tt now (hL.trans h2)

theorem checkTimeLimits_zeroLimit_noop_witness :
    ([("www.y.com", (0 : ℚ))].lookup "www.y.com" = some 0) ∧
    ([("www.y.com", (0 : ℚ))].lookup (stripWww "www.y.com") = some 0 ∨
      [("www.y.com", (0 : ℚ))].lookup (stripWww "www.y.com") = none) ∧
    checkTimeLimits [("www.y.com", (0 : ℚ))] [] "www.y.com" 99999 5 = (false, []) :=
  ⟨of_decide_eq_true (by with_unfolding_all rfl),
   Or.inr (of_decide_eq_true (by with_unfolding_all rfl)),
   checkTimeLimits_zeroLimit_noop [("www.y.com", (0 : ℚ))] [] "www.y.com" 99999 5
     (of_decide_eq_true (by with_unfolding_all rfl))
     (Or.inr (of_decide_eq_true (by with_unfolding_all rfl)))⟩

end Rabbithole
